import Mathlib

set_option maxRecDepth 8192
set_option maxHeartbeats 1000000

/-!
Verification of the jsont JSON tokenizer and builder (src/jsont.c, src/jsont.h,
src/jsont.hh) against its natural-language specification.

The scanner (jsont.c) is embedded shallowly: the context struct becomes a Lean
structure, pointers into the input buffer become natural-number offsets, and the
scanning loops become fuel-indexed recursive functions.  Each scanning loop of
the C code consumes at least one input byte per iteration (a zero byte is
returned without consuming only at end of input, and every looping branch has a
nonzero byte), so a fuel of `remaining input + 1` can never run out; all
theorems below either use that canonical fuel or quantify over sufficient fuel.
-/

/-! ### Token constants, mirroring the token `enum` of jsont.h -/

def JSONT_END : Nat := 0
def JSONT_ERR : Nat := 1
def JSONT_OBJECT_START : Nat := 2
def JSONT_OBJECT_END : Nat := 3
def JSONT_ARRAY_START : Nat := 4
def JSONT_ARRAY_END : Nat := 5
def JSONT_TRUE : Nat := 6
def JSONT_FALSE : Nat := 7
def JSONT_NULL : Nat := 8
def _JSONT_VALUES_START : Nat := 9
def JSONT_NUMBER_INT : Nat := 10
def JSONT_NUMBER_FLOAT : Nat := 11
def JSONT_STRING : Nat := 12
def JSONT_FIELD_NAME : Nat := 13
def _JSONT_VALUES_END : Nat := 14
def _JSONT_COMMA : Nat := 15

/-- The six error descriptors of jsont.c (`JSONT_ERRINFO_*`).  The C stores a
pointer to a static message string; we model the descriptor identity. -/
inductive ErrInfo where
  | stackSize            -- "Stack size limit exceeded"
  | unexpectedObjectEnd  -- "Unexpected end of object while not in an object"
  | unexpectedArrayEnd   -- "Unexpected end of array while not in an array"
  | unexpectedComma      -- "Unexpected \",\""
  | unexpectedColon      -- "Unexpected \":\""
  | unexpectedInput      -- "Unexpected input"
deriving DecidableEq, Repr

/-- The scanner context `jsont_ctx_t` of jsont.c.  Pointers into the input
buffer are modelled as offsets; the C keeps `input_len` separately but
`jsont_reset` always sets it to the buffer length, so we use
`input_buf.length`.  `input_buf_value_start`/`..._end` are `NULL` until first
set, hence `Option`.  The fixed stack storage of capacity
`_STRUCT_TYPE_STACK_SIZE` plus `st_stack_len` is modelled as a list (top
element first) whose length is `st_stack_len`, with `st_stack_size` the
capacity. -/
structure jsont_ctx_t where
  input_buf : List Nat
  input_buf_ptr : Nat
  input_buf_value_start : Option Nat
  input_buf_value_end : Option Nat
  error_info : Option ErrInfo
  curr_tok : Nat
  st_stack_size : Nat
  st_stack : List Nat
deriving DecidableEq, Repr

/-- `jsont_create`: calloc zeroes the struct (so `curr_tok = JSONT_END = 0`,
empty stack, null pointers) and the stack capacity is set to
`_STRUCT_TYPE_STACK_SIZE = 512`. -/
def jsont_create : jsont_ctx_t :=
  { input_buf := []
    input_buf_ptr := 0
    input_buf_value_start := none
    input_buf_value_end := none
    error_info := none
    curr_tok := JSONT_END
    st_stack_size := 512
    st_stack := [] }

/-- `jsont_reset`. -/
def jsont_reset (ctx : jsont_ctx_t) (bytes : List Nat) : jsont_ctx_t :=
  { ctx with
      input_buf := bytes
      input_buf_ptr := 0
      st_stack := []
      curr_tok := JSONT_END
      input_buf_value_start := none
      input_buf_value_end := none
      error_info := none }

/-- `jsont_current_offset`: `input_buf_ptr - input_buf`. -/
def jsont_current_offset (ctx : jsont_ctx_t) : Nat := ctx.input_buf_ptr

def _input_avail (ctx : jsont_ctx_t) : Nat :=
  ctx.input_buf.length - ctx.input_buf_ptr

/-- The byte returned by `_next_byte`: 0 at end of input, otherwise the byte
at the cursor. -/
def _next_byte_val (ctx : jsont_ctx_t) : Nat :=
  if _input_avail ctx = 0 then 0 else ctx.input_buf.getD ctx.input_buf_ptr 0

/-- The cursor advance performed by `_next_byte`: the cursor moves only when
input is available. -/
def _next_byte_adv (ctx : jsont_ctx_t) : jsont_ctx_t :=
  if _input_avail ctx = 0 then ctx
  else { ctx with input_buf_ptr := ctx.input_buf_ptr + 1 }

/-- `_st_stack_top`: top of the structure stack, `JSONT_END` when empty. -/
def _st_stack_top (ctx : jsont_ctx_t) : Nat :=
  match ctx.st_stack with
  | [] => JSONT_END
  | t :: _ => t

/-- `_set_tok`: records the token and maintains the structure stack, erroring
on overflow and on mismatched closers. -/
def _set_tok (ctx : jsont_ctx_t) (tok : Nat) : jsont_ctx_t :=
  let c := { ctx with curr_tok := tok }
  if tok = JSONT_END then c
  else if tok = JSONT_OBJECT_START then
    if c.st_stack.length = c.st_stack_size then
      { c with error_info := some ErrInfo.stackSize, curr_tok := JSONT_ERR }
    else { c with st_stack := JSONT_OBJECT_START :: c.st_stack }
  else if tok = JSONT_OBJECT_END then
    if _st_stack_top c ≠ JSONT_OBJECT_START then
      { c with
          error_info := some ErrInfo.unexpectedObjectEnd
          curr_tok := JSONT_ERR }
    else { c with st_stack := c.st_stack.tail }
  else if tok = JSONT_ARRAY_START then
    if c.st_stack.length = c.st_stack_size then
      { c with error_info := some ErrInfo.stackSize, curr_tok := JSONT_ERR }
    else { c with st_stack := JSONT_ARRAY_START :: c.st_stack }
  else if tok = JSONT_ARRAY_END then
    if _st_stack_top c ≠ JSONT_ARRAY_START then
      { c with
          error_info := some ErrInfo.unexpectedArrayEnd
          curr_tok := JSONT_ERR }
    else { c with st_stack := c.st_stack.tail }
  else c

/-- `_read_atom`: after the leading letter of `null`/`true`/`false` was
consumed, either skip the fixed trailing bytes or rewind one byte and report
`JSONT_END`. -/
def _read_atom (ctx : jsont_ctx_t) (slacklen : Nat) (tok : Nat) : jsont_ctx_t :=
  if _input_avail ctx < slacklen then
    _set_tok { ctx with input_buf_ptr := ctx.input_buf_ptr - 1 } JSONT_END
  else
    _set_tok { ctx with input_buf_ptr := ctx.input_buf_ptr + slacklen } tok

/-- `_expects_field_name`. -/
def _expects_field_name (ctx : jsont_ctx_t) : Bool :=
  ctx.curr_tok == JSONT_OBJECT_START ||
    (ctx.curr_tok == _JSONT_COMMA && _st_stack_top ctx == JSONT_OBJECT_START)

/-- C `isdigit` on a byte value. -/
def _isdigit (b : Nat) : Bool := 48 ≤ b && b ≤ 57

/-- The inner string-scanning loop of `jsont_next` (case `"` in jsont.c):
scan to an unescaped closing quote, or rewind to the opening quote and
report `JSONT_END` when a zero byte is produced. -/
def _scan_string : Nat → jsont_ctx_t → Nat → jsont_ctx_t
  | 0, ctx, _ => ctx
  | fuel + 1, ctx, prev_b =>
    let b := _next_byte_val ctx
    let c := _next_byte_adv ctx
    if b = 34 ∧ prev_b ≠ 92 then
      let c := { c with input_buf_value_end := some (c.input_buf_ptr - 1) }
      _set_tok c (if _expects_field_name c then JSONT_FIELD_NAME
                  else JSONT_STRING)
    else if b = 0 then
      -- _rewind_bytes(ctx, input_buf_ptr - (input_buf_value_start - 1))
      let vs := c.input_buf_value_start.getD 0
      let c := { c with input_buf_ptr :=
                   c.input_buf_ptr - (c.input_buf_ptr - (vs - 1)) }
      _set_tok c JSONT_END
    else _scan_string fuel c b

/-- The inner number-scanning loop of `jsont_next` (default case in jsont.c).
Note the `b = 0` rewind branch sits below the `¬ isdigit b` branch, exactly as
in the C source, where it is unreachable because `isdigit(0)` is false. -/
def _scan_number : Nat → jsont_ctx_t → Bool → jsont_ctx_t
  | 0, ctx, _ => ctx
  | fuel + 1, ctx, is_float =>
    let b := _next_byte_val ctx
    let c := _next_byte_adv ctx
    if b = 46 then _scan_number fuel c true
    else if ¬ _isdigit b then
      let c := { c with input_buf_ptr := c.input_buf_ptr - 1 }
      let c := { c with input_buf_value_end := some c.input_buf_ptr }
      _set_tok c (if is_float then JSONT_NUMBER_FLOAT else JSONT_NUMBER_INT)
    else if b = 0 then
      let vs := c.input_buf_value_start.getD 0
      let c := { c with input_buf_ptr :=
                   c.input_buf_ptr - (c.input_buf_ptr - (vs - 1)) }
      _set_tok c JSONT_END
    else _scan_number fuel c is_float

/-- The outer dispatch loop of `jsont_next`.  Byte constants: `{` 123, `}` 125,
`[` 91, `]` 93, `n` 110, `t` 116, `f` 102, `"` 34, `,` 44, `:` 58, space 32,
CR 13, LF 10, TAB 9, `+` 43, `-` 45. -/
def _jsont_next_go : Nat → jsont_ctx_t → jsont_ctx_t
  | 0, ctx => ctx
  | fuel + 1, ctx =>
    let b := _next_byte_val ctx
    let c := _next_byte_adv ctx
    if b = 123 then _set_tok c JSONT_OBJECT_START
    else if b = 125 then _set_tok c JSONT_OBJECT_END
    else if b = 91 then _set_tok c JSONT_ARRAY_START
    else if b = 93 then _set_tok c JSONT_ARRAY_END
    else if b = 110 then _read_atom c 3 JSONT_NULL
    else if b = 116 then _read_atom c 3 JSONT_TRUE
    else if b = 102 then _read_atom c 4 JSONT_FALSE
    else if b = 34 then
      let c := { c with input_buf_value_start := some c.input_buf_ptr }
      _scan_string fuel c 0
    else if b = 44 then
      if c.curr_tok = JSONT_OBJECT_START ∨ c.curr_tok = JSONT_ARRAY_START ∨
          c.curr_tok = JSONT_END ∨ c.curr_tok = JSONT_ERR then
        let c := if c.curr_tok ≠ JSONT_ERR then
                   { c with error_info := some ErrInfo.unexpectedComma }
                 else c
        _set_tok c JSONT_ERR
      else _jsont_next_go fuel (_set_tok c _JSONT_COMMA)
    else if b = 58 then
      if c.curr_tok ≠ JSONT_FIELD_NAME then
        _set_tok { c with error_info := some ErrInfo.unexpectedColon } JSONT_ERR
      else _jsont_next_go fuel c
    else if b = 32 ∨ b = 13 ∨ b = 10 ∨ b = 9 then _jsont_next_go fuel c
    else if b = 0 then _set_tok c JSONT_END
    else if _isdigit b ∨ b = 43 ∨ b = 45 then
      let c := { c with input_buf_value_start := some (c.input_buf_ptr - 1) }
      _scan_number fuel c false
    else
      _set_tok { c with error_info := some ErrInfo.unexpectedInput } JSONT_ERR

/-- `jsont_next`.  The canonical fuel `_input_avail ctx + 1` strictly exceeds
the number of bytes any scanning loop can consume, so the fuel never runs
out. -/
def jsont_next (ctx : jsont_ctx_t) : jsont_ctx_t :=
  _jsont_next_go (_input_avail ctx + 1) ctx

/-- `_no_value`. -/
def _no_value (ctx : jsont_ctx_t) : Bool :=
  ctx.input_buf_value_start.isNone ||
    decide (ctx.curr_tok < _JSONT_VALUES_START) ||
    decide (_JSONT_VALUES_END < ctx.curr_tok)

/-- `jsont_data_value`: the current value slice (empty when there is none). -/
def jsont_data_value (ctx : jsont_ctx_t) : List Nat :=
  if _no_value ctx then []
  else
    (ctx.input_buf.drop (ctx.input_buf_value_start.getD 0)).take
      (ctx.input_buf_value_end.getD 0 - ctx.input_buf_value_start.getD 0)

/-- Iterate `jsont_next` and collect `(token, value slice)` pairs. -/
def jsont_tokens : Nat → jsont_ctx_t → List (Nat × List Nat)
  | 0, _ => []
  | n + 1, ctx =>
    let c := jsont_next ctx
    (c.curr_tok, jsont_data_value c) :: jsont_tokens n c

/-- Scan a fresh buffer for `n` tokens. -/
def jsont_scan (bytes : List Nat) (n : Nat) : List (Nat × List Nat) :=
  jsont_tokens n (jsont_reset jsont_create bytes)

/-! ### The integer accessor `jsont_int_value` of jsont.c -/

/-- `errno` values the accessor can set. -/
inductive JErrno where
  | einval
  | erange
deriving DecidableEq, Repr

def UINT64_MOD : Nat := 2 ^ 64
def INT64_MAX : Int := 2 ^ 63 - 1
def INT64_MIN : Int := -(2 ^ 63)

/-- The accumulation loop of `jsont_int_value`.  The arguments mirror the C
locals: the remaining slice bytes, the `uint64_t` accumulator `acc`, the flag
`any` (0 no digit yet, 1 accumulating, -1 overflowed), and the precomputed
`cutoff`/`cutlim`.  The loop breaks on the first non-digit byte; the byte the C
reads one position past the slice end is never processed (the loop condition
`start != end` stops first), so it does not appear here.  Returns the final
`(acc, any)`. -/
def _int_loop : List Nat → Nat → Int → Nat → Nat → Nat × Int
  | [], acc, any, _, _ => (acc, any)
  | b :: bs, acc, any, cutoff, cutlim =>
    if 48 ≤ b ∧ b ≤ 57 then
      let d := b - 48
      if any < 0 ∨ acc > cutoff ∨ (acc = cutoff ∧ d > cutlim) then
        _int_loop bs acc (-1) cutoff cutlim
      else
        _int_loop bs ((acc * 10 + d) % UINT64_MOD) 1 cutoff cutlim
    else (acc, any)

/-- The C cast `(int64_t)acc` of a `uint64_t`. -/
def _uint64_to_int64 (u : Nat) : Int :=
  if u < 2 ^ 63 then (u : Int) else (u : Int) - 2 ^ 64

/-- Body of `jsont_int_value` after the sign has been handled: `cutoff` is
`(uint64_t)-(LLONG_MIN + LLONG_MAX) + LLONG_MAX = 2^63` for negative input and
`LLONG_MAX = 2^63 - 1` otherwise; on overflow the accumulator is replaced by
`LLONG_MIN`/`LLONG_MAX` (as `uint64_t`) with `errno = ERANGE`; with no digit at
all, `errno = EINVAL` and `INT64_MIN` is returned; otherwise a negative value
is produced by the `uint64_t` negation `acc = -acc`.  The returned `Option`
is the `errno` effect (`none` = untouched). -/
def _int_value_go (negative : Bool) (bytes : List Nat) : Int × Option JErrno :=
  let cutoff0 : Nat := if negative then 2 ^ 63 else 2 ^ 63 - 1
  let cutlim := cutoff0 % 10
  let cutoff := cutoff0 / 10
  let r := _int_loop bytes 0 0 cutoff cutlim
  if r.2 < 0 then
    (if negative then INT64_MIN else INT64_MAX, some JErrno.erange)
  else if r.2 = 0 then (INT64_MIN, some JErrno.einval)
  else
    let acc := if negative then (UINT64_MOD - r.1) % UINT64_MOD else r.1
    (_uint64_to_int64 acc, none)

/-- `jsont_int_value` on the current value slice.  A leading `-` or `+` is
consumed; if the sign is the entire slice the C detects `start == end` and
fails with `EINVAL`.  (On an empty slice the C dereferences the byte adjacent
to the slice; the scanner never hands the accessor an empty slice from the
claims below, and we map that case to the `EINVAL` failure.) -/
def jsont_int_value_slice (bytes : List Nat) : Int × Option JErrno :=
  match bytes with
  | [] => (INT64_MIN, some JErrno.einval)
  | b :: rest =>
    if b = 45 then
      match rest with
      | [] => (INT64_MIN, some JErrno.einval)
      | _ => _int_value_go true rest
    else if b = 43 then
      match rest with
      | [] => (INT64_MIN, some JErrno.einval)
      | _ => _int_value_go false rest
    else _int_value_go false (b :: rest)

/-- `jsont_int_value` on a context: `INT64_MIN` with `errno` untouched when
there is no current value. -/
def jsont_int_value (ctx : jsont_ctx_t) : Int × Option JErrno :=
  if _no_value ctx then (INT64_MIN, none)
  else jsont_int_value_slice (jsont_data_value ctx)

/-- The mathematical value of a string of decimal digit bytes. -/
def decimalVal (ds : List Nat) : Nat :=
  ds.foldl (fun a b => a * 10 + (b - 48)) 0

/-- The signed value denoted by an optional sign prefix and digit bytes. -/
def signedVal (pre ds : List Nat) : Int :=
  if pre = [45] then -(decimalVal ds : Int) else (decimalVal ds : Int)

/-! ### The Builder of jsont.hh -/

/-- The separator states of `jsont::Builder`. -/
inductive BState where
  | NeutralState
  | AfterFieldName
  | AfterValue
  | AfterObjectStart
  | AfterArrayStart
deriving DecidableEq, Repr

/-- `jsont::Builder` (jsont.hh).  `_buf` models the first `_size` bytes of the
allocation (so `_size = _buf.length`); `_capacity` tracks the allocation size
as in the C++. -/
structure Builder where
  _buf : List Nat
  _capacity : Nat
  _state : BState
deriving DecidableEq, Repr

/-- `Builder()`: null buffer, zero capacity and size, neutral state. -/
def Builder.mkNew : Builder :=
  { _buf := [], _capacity := 0, _state := BState.NeutralState }

def Builder.available (b : Builder) : Nat := b._capacity - b._buf.length

/-- `Builder::reserve`: `_capacity = _capacity + size - available();
_capacity = (_capacity < 64) ? 64 : (_capacity * 1.5);`.  The `double`
multiplication by 1.5 followed by the cast back to `size_t` is exact
truncation, i.e. `n * 3 / 2` in natural numbers (for all sizes below 2^52,
which covers every reachable buffer size). -/
def Builder.reserve (b : Builder) (size : Nat) : Builder :=
  if b.available < size then
    let c1 := b._capacity + size - b.available
    { b with _capacity := if c1 < 64 then 64 else c1 * 3 / 2 }
  else b

/-- `Builder::appendChar`. -/
def Builder.appendChar (b : Builder) (byte : Nat) : Builder :=
  let b := b.reserve 1
  { b with _buf := b._buf ++ [byte] }

/-- `Builder::prefix` (named `separator` here): emit `:` after a field name,
`,` after a value, nothing otherwise. -/
def Builder.separator (b : Builder) : Builder :=
  if b._state = BState.AfterFieldName then b.appendChar 58
  else if b._state = BState.AfterValue then b.appendChar 44
  else b

/-- Modelled from the spec: `Builder::appendString` is declared in jsont.hh
but its definition lives in a source file (jsont.cc) that is not part of this
repository.  Per the spec's builder scenario and data model, a field name or
text value is appended as a double quote, the raw bytes, and a closing double
quote (escape handling is out of the spec's scope); like the in-repository
append paths it reserves `length + 2` bytes first. -/
def Builder.appendString (b : Builder) (v : List Nat) : Builder :=
  let b := b.reserve (v.length + 2)
  { b with _buf := b._buf ++ [34] ++ v ++ [34] }

def Builder.startObject (b : Builder) : Builder :=
  let b := b.separator
  let b := { b with _state := BState.AfterObjectStart }
  b.appendChar 123

def Builder.endObject (b : Builder) : Builder :=
  let b := { b with _state := BState.AfterValue }
  b.appendChar 125

def Builder.startArray (b : Builder) : Builder :=
  let b := b.separator
  let b := { b with _state := BState.AfterArrayStart }
  b.appendChar 91

def Builder.endArray (b : Builder) : Builder :=
  let b := { b with _state := BState.AfterValue }
  b.appendChar 93

def Builder.fieldName (b : Builder) (v : List Nat) : Builder :=
  let b := b.separator
  let b := { b with _state := BState.AfterFieldName }
  b.appendString v

/-- Decimal digit bytes of a natural number (what `snprintf` with `%lld`
produces for a non-negative value). -/
def natDecimal (n : Nat) : List Nat := (Nat.toDigits 10 n).map Char.toNat

/-- Decimal byte rendering of a signed integer. -/
def intDecimal (v : Int) : List Nat :=
  if v < 0 then 45 :: natDecimal v.natAbs else natDecimal v.natAbs

/-- `Builder::value(int64_t)`: separator, reserve 21 scratch bytes, then the
`snprintf`-formatted decimal digits. -/
def Builder.valueInt (b : Builder) (v : Int) : Builder :=
  let b := b.separator
  let b := b.reserve 21
  let b := { b with _buf := b._buf ++ intDecimal v }
  { b with _state := BState.AfterValue }

/-- `Builder::value(bool)`: separator, then the bytes of `true` (reserving 4)
or `false` (reserving 5). -/
def Builder.valueBool (b : Builder) (v : Bool) : Builder :=
  let b := b.separator
  let b :=
    if v then
      let b := b.reserve 4
      { b with _buf := b._buf ++ [116, 114, 117, 101] }
    else
      let b := b.reserve 5
      { b with _buf := b._buf ++ [102, 97, 108, 115, 101] }
  { b with _state := BState.AfterValue }

/-- `Builder::nullValue`. -/
def Builder.nullValue (b : Builder) : Builder :=
  let b := b.separator
  let b := b.reserve 4
  let b := { b with _buf := b._buf ++ [110, 117, 108, 108] }
  { b with _state := BState.AfterValue }

/-- Iterated `startArray`, used to drive the builder to a specific fill
level. -/
def startArrayN : Nat → Builder → Builder
  | 0, b => b
  | n + 1, b => startArrayN n b.startArray

/-! ### Helper lemmas: stack-field preservation and the capacity invariant -/

/-- The structural-stack length never exceeds the capacity. -/
def StackOk (c : jsont_ctx_t) : Prop := c.st_stack.length ≤ c.st_stack_size

theorem _next_byte_adv_curr (c : jsont_ctx_t) :
    (_next_byte_adv c).curr_tok = c.curr_tok := by
  unfold _next_byte_adv; split <;> rfl

theorem _next_byte_adv_stack (c : jsont_ctx_t) :
    (_next_byte_adv c).st_stack = c.st_stack := by
  unfold _next_byte_adv; split <;> rfl

theorem _next_byte_adv_size (c : jsont_ctx_t) :
    (_next_byte_adv c).st_stack_size = c.st_stack_size := by
  unfold _next_byte_adv; split <;> rfl

theorem _set_tok_size (c : jsont_ctx_t) (t : Nat) :
    (_set_tok c t).st_stack_size = c.st_stack_size := by
  unfold _set_tok; dsimp only; split_ifs <;> rfl

theorem _set_tok_ok (c : jsont_ctx_t) (t : Nat) (h : StackOk c) :
    StackOk (_set_tok c t) := by
  unfold StackOk at h ⊢
  unfold _set_tok
  dsimp only
  split_ifs <;> simp_all [List.length_tail] <;> omega

theorem _read_atom_size (c : jsont_ctx_t) (n t : Nat) :
    (_read_atom c n t).st_stack_size = c.st_stack_size := by
  unfold _read_atom; split <;> exact _set_tok_size _ _

theorem _read_atom_ok (c : jsont_ctx_t) (n t : Nat) (h : StackOk c) :
    StackOk (_read_atom c n t) := by
  unfold _read_atom; split <;> exact _set_tok_ok _ _ h

theorem _scan_string_size (fuel : Nat) :
    ∀ (c : jsont_ctx_t) (p : Nat),
      (_scan_string fuel c p).st_stack_size = c.st_stack_size := by
  induction fuel with
  | zero => intro c p; rfl
  | succ n ih =>
    intro c p
    have hsz := _next_byte_adv_size c
    unfold _scan_string
    dsimp only
    generalize hb : _next_byte_val c = b
    generalize hc : _next_byte_adv c = c2
    rw [hc] at hsz
    split_ifs <;>
      first
        | (rw [_set_tok_size]; exact hsz)
        | (rw [ih]; exact hsz)

theorem _scan_string_ok (fuel : Nat) :
    ∀ (c : jsont_ctx_t) (p : Nat), StackOk c → StackOk (_scan_string fuel c p) := by
  induction fuel with
  | zero => intro c p h; exact h
  | succ n ih =>
    intro c p h
    have hadv : StackOk (_next_byte_adv c) := by
      unfold StackOk at h ⊢
      rw [_next_byte_adv_stack, _next_byte_adv_size]; exact h
    unfold _scan_string
    dsimp only
    generalize hb : _next_byte_val c = b
    generalize hc : _next_byte_adv c = c2
    rw [hc] at hadv
    split_ifs <;>
      first
        | exact _set_tok_ok _ _ hadv
        | exact ih _ _ hadv

theorem _scan_number_size (fuel : Nat) :
    ∀ (c : jsont_ctx_t) (f : Bool),
      (_scan_number fuel c f).st_stack_size = c.st_stack_size := by
  induction fuel with
  | zero => intro c f; rfl
  | succ n ih =>
    intro c f
    have hsz := _next_byte_adv_size c
    unfold _scan_number
    dsimp only
    generalize hb : _next_byte_val c = b
    generalize hc : _next_byte_adv c = c2
    rw [hc] at hsz
    split_ifs <;>
      first
        | (rw [_set_tok_size]; exact hsz)
        | (rw [ih]; exact hsz)

theorem _scan_number_ok (fuel : Nat) :
    ∀ (c : jsont_ctx_t) (f : Bool), StackOk c → StackOk (_scan_number fuel c f) := by
  induction fuel with
  | zero => intro c f h; exact h
  | succ n ih =>
    intro c f h
    have hadv : StackOk (_next_byte_adv c) := by
      unfold StackOk at h ⊢
      rw [_next_byte_adv_stack, _next_byte_adv_size]; exact h
    unfold _scan_number
    dsimp only
    generalize hb : _next_byte_val c = b
    generalize hc : _next_byte_adv c = c2
    rw [hc] at hadv
    split_ifs <;>
      first
        | exact _set_tok_ok _ _ hadv
        | exact ih _ _ hadv

theorem _jsont_next_go_size (fuel : Nat) :
    ∀ c : jsont_ctx_t, (_jsont_next_go fuel c).st_stack_size = c.st_stack_size := by
  induction fuel with
  | zero => intro c; rfl
  | succ n ih =>
    intro c
    have hsz := _next_byte_adv_size c
    unfold _jsont_next_go
    dsimp only
    generalize hb : _next_byte_val c = b
    generalize hc : _next_byte_adv c = c2
    rw [hc] at hsz
    by_cases h1 : b = 123
    · rw [if_pos h1, _set_tok_size]; exact hsz
    rw [if_neg h1]
    by_cases h2 : b = 125
    · rw [if_pos h2, _set_tok_size]; exact hsz
    rw [if_neg h2]
    by_cases h3 : b = 91
    · rw [if_pos h3, _set_tok_size]; exact hsz
    rw [if_neg h3]
    by_cases h4 : b = 93
    · rw [if_pos h4, _set_tok_size]; exact hsz
    rw [if_neg h4]
    by_cases h5 : b = 110
    · rw [if_pos h5, _read_atom_size]; exact hsz
    rw [if_neg h5]
    by_cases h6 : b = 116
    · rw [if_pos h6, _read_atom_size]; exact hsz
    rw [if_neg h6]
    by_cases h7 : b = 102
    · rw [if_pos h7, _read_atom_size]; exact hsz
    rw [if_neg h7]
    by_cases h8 : b = 34
    · rw [if_pos h8, _scan_string_size]; exact hsz
    rw [if_neg h8]
    by_cases h9 : b = 44
    · rw [if_pos h9]
      by_cases h9a : c2.curr_tok = JSONT_OBJECT_START ∨
          c2.curr_tok = JSONT_ARRAY_START ∨ c2.curr_tok = JSONT_END ∨
          c2.curr_tok = JSONT_ERR
      · rw [if_pos h9a]
        by_cases h9b : c2.curr_tok ≠ JSONT_ERR
        · rw [if_pos h9b, _set_tok_size]; exact hsz
        · rw [if_neg h9b, _set_tok_size]; exact hsz
      · rw [if_neg h9a, ih, _set_tok_size]; exact hsz
    rw [if_neg h9]
    by_cases h10 : b = 58
    · rw [if_pos h10]
      by_cases h10a : c2.curr_tok ≠ JSONT_FIELD_NAME
      · rw [if_pos h10a, _set_tok_size]; exact hsz
      · rw [if_neg h10a, ih]; exact hsz
    rw [if_neg h10]
    by_cases h11 : b = 32 ∨ b = 13 ∨ b = 10 ∨ b = 9
    · rw [if_pos h11, ih]; exact hsz
    rw [if_neg h11]
    by_cases h12 : b = 0
    · rw [if_pos h12, _set_tok_size]; exact hsz
    rw [if_neg h12]
    by_cases h13 : _isdigit b = true ∨ b = 43 ∨ b = 45
    · rw [if_pos h13, _scan_number_size]; exact hsz
    rw [if_neg h13, _set_tok_size]; exact hsz

theorem _jsont_next_go_ok (fuel : Nat) :
    ∀ c : jsont_ctx_t, StackOk c → StackOk (_jsont_next_go fuel c) := by
  induction fuel with
  | zero => intro c h; exact h
  | succ n ih =>
    intro c h
    have hadv : StackOk (_next_byte_adv c) := by
      unfold StackOk at h ⊢
      rw [_next_byte_adv_stack, _next_byte_adv_size]; exact h
    unfold _jsont_next_go
    dsimp only
    generalize hb : _next_byte_val c = b
    generalize hc : _next_byte_adv c = c2
    rw [hc] at hadv
    by_cases h1 : b = 123
    · rw [if_pos h1]; exact _set_tok_ok _ _ hadv
    rw [if_neg h1]
    by_cases h2 : b = 125
    · rw [if_pos h2]; exact _set_tok_ok _ _ hadv
    rw [if_neg h2]
    by_cases h3 : b = 91
    · rw [if_pos h3]; exact _set_tok_ok _ _ hadv
    rw [if_neg h3]
    by_cases h4 : b = 93
    · rw [if_pos h4]; exact _set_tok_ok _ _ hadv
    rw [if_neg h4]
    by_cases h5 : b = 110
    · rw [if_pos h5]; exact _read_atom_ok _ _ _ hadv
    rw [if_neg h5]
    by_cases h6 : b = 116
    · rw [if_pos h6]; exact _read_atom_ok _ _ _ hadv
    rw [if_neg h6]
    by_cases h7 : b = 102
    · rw [if_pos h7]; exact _read_atom_ok _ _ _ hadv
    rw [if_neg h7]
    by_cases h8 : b = 34
    · rw [if_pos h8]; exact _scan_string_ok _ _ _ hadv
    rw [if_neg h8]
    by_cases h9 : b = 44
    · rw [if_pos h9]
      by_cases h9a : c2.curr_tok = JSONT_OBJECT_START ∨
          c2.curr_tok = JSONT_ARRAY_START ∨ c2.curr_tok = JSONT_END ∨
          c2.curr_tok = JSONT_ERR
      · rw [if_pos h9a]
        by_cases h9b : c2.curr_tok ≠ JSONT_ERR
        · rw [if_pos h9b]; exact _set_tok_ok _ _ hadv
        · rw [if_neg h9b]; exact _set_tok_ok _ _ hadv
      · rw [if_neg h9a]; exact ih _ (_set_tok_ok _ _ hadv)
    rw [if_neg h9]
    by_cases h10 : b = 58
    · rw [if_pos h10]
      by_cases h10a : c2.curr_tok ≠ JSONT_FIELD_NAME
      · rw [if_pos h10a]; exact _set_tok_ok _ _ hadv
      · rw [if_neg h10a]; exact ih _ hadv
    rw [if_neg h10]
    by_cases h11 : b = 32 ∨ b = 13 ∨ b = 10 ∨ b = 9
    · rw [if_pos h11]; exact ih _ hadv
    rw [if_neg h11]
    by_cases h12 : b = 0
    · rw [if_pos h12]; exact _set_tok_ok _ _ hadv
    rw [if_neg h12]
    by_cases h13 : _isdigit b = true ∨ b = 43 ∨ b = 45
    · rw [if_pos h13]; exact _scan_number_ok _ _ _ hadv
    rw [if_neg h13]; exact _set_tok_ok _ _ hadv

/-- `_set_tok` on a token that is neither `JSONT_END` nor one of the four
structural tokens only records the token. -/
theorem _set_tok_plain (c : jsont_ctx_t) (t : Nat)
    (h1 : t ≠ JSONT_END) (h2 : t ≠ JSONT_OBJECT_START)
    (h3 : t ≠ JSONT_OBJECT_END) (h4 : t ≠ JSONT_ARRAY_START)
    (h5 : t ≠ JSONT_ARRAY_END) :
    _set_tok c t = { c with curr_tok := t } := by
  unfold _set_tok
  dsimp only
  rw [if_neg h1, if_neg h2, if_neg h3, if_neg h4, if_neg h5]

theorem _set_tok_end_eq (c : jsont_ctx_t) :
    _set_tok c JSONT_END = { c with curr_tok := JSONT_END } := by
  unfold _set_tok
  dsimp only
  rw [if_pos rfl]

theorem _st_stack_top_congr (a b : jsont_ctx_t) (h : a.st_stack = b.st_stack) :
    _st_stack_top a = _st_stack_top b := by
  unfold _st_stack_top
  rw [h]

theorem _set_tok_quoted (c : jsont_ctx_t) (e : Bool) :
    _set_tok c (if e then JSONT_FIELD_NAME else JSONT_STRING) =
      { c with
          curr_tok := if e then JSONT_FIELD_NAME else JSONT_STRING } := by
  cases e <;>
    exact _set_tok_plain c _ (by decide) (by decide) (by decide) (by decide)
      (by decide)

theorem _expects_iff (c : jsont_ctx_t) :
    _expects_field_name c = true ↔
      (c.curr_tok = JSONT_OBJECT_START ∨
        (c.curr_tok = _JSONT_COMMA ∧ _st_stack_top c = JSONT_OBJECT_START)) := by
  unfold _expects_field_name
  simp [Bool.or_eq_true, Bool.and_eq_true, beq_iff_eq]

theorem _expects_adv (c : jsont_ctx_t) :
    _expects_field_name (_next_byte_adv c) = _expects_field_name c := by
  unfold _expects_field_name
  rw [_next_byte_adv_curr, _st_stack_top_congr _ _ (_next_byte_adv_stack c)]

theorem _expects_scan_record (c : jsont_ctx_t) :
    _expects_field_name
        { c with input_buf_value_end := some (c.input_buf_ptr - 1) } =
      _expects_field_name c := rfl

theorem jsont_next_size (c : jsont_ctx_t) :
    (jsont_next c).st_stack_size = c.st_stack_size :=
  _jsont_next_go_size _ c

theorem jsont_next_ok (c : jsont_ctx_t) (h : StackOk c) : StackOk (jsont_next c) :=
  _jsont_next_go_ok _ c h

/-! ### Claim theorems -/

/-- C3.  (1) From a fresh scanner, any number of advance calls leaves the
structural stack at depth at most 512, the capacity installed by
`jsont_create`.  (2) An `ObjectStart`/`ArrayStart` arriving while the stack is
exactly at capacity turns into the `Error` token with the stack-size
descriptor, and the stack is left unchanged (no frame is pushed). -/
theorem stack_depth_bounded :
    (∀ (bytes : List Nat) (n : Nat),
        (jsont_next^[n] (jsont_reset jsont_create bytes)).st_stack.length ≤ 512) ∧
    (∀ (ctx : jsont_ctx_t) (tok : Nat),
        ctx.st_stack.length = ctx.st_stack_size →
        tok = JSONT_OBJECT_START ∨ tok = JSONT_ARRAY_START →
        _set_tok ctx tok =
          { ctx with
              curr_tok := JSONT_ERR
              error_info := some ErrInfo.stackSize }) := by
  constructor
  · intro bytes n
    have key : ∀ m : Nat,
        StackOk (jsont_next^[m] (jsont_reset jsont_create bytes)) ∧
          (jsont_next^[m] (jsont_reset jsont_create bytes)).st_stack_size = 512 := by
      intro m
      induction m with
      | zero => exact ⟨by simp [StackOk, jsont_reset, jsont_create], rfl⟩
      | succ k ihk =>
        rw [Function.iterate_succ_apply']
        exact ⟨jsont_next_ok _ ihk.1, by rw [jsont_next_size]; exact ihk.2⟩
    have h := key n
    unfold StackOk at h
    omega
  · intro ctx tok hlen htok
    rcases htok with h | h <;> subst h <;>
      simp [_set_tok, JSONT_OBJECT_START, JSONT_ARRAY_START, JSONT_END,
        JSONT_OBJECT_END, JSONT_ARRAY_END, hlen]

/-- C3 witness: a concrete context already at capacity (capacity 1, one open
array) rejects a further `{` with the stack-size error and an unchanged
stack, and iterated scanning of `[[` from a fresh scanner stays within the
bound. -/
theorem stack_depth_bounded_witness :
    (jsont_next^[2] (jsont_reset jsont_create [91, 91])).st_stack.length ≤ 512 ∧
      _set_tok
          { input_buf := [123]
            input_buf_ptr := 1
            input_buf_value_start := none
            input_buf_value_end := none
            error_info := none
            curr_tok := JSONT_ARRAY_START
            st_stack_size := 1
            st_stack := [JSONT_ARRAY_START] } JSONT_OBJECT_START =
        { input_buf := [123]
          input_buf_ptr := 1
          input_buf_value_start := none
          input_buf_value_end := none
          error_info := some ErrInfo.stackSize
          curr_tok := JSONT_ERR
          st_stack_size := 1
          st_stack := [JSONT_ARRAY_START] } := by
  refine ⟨stack_depth_bounded.1 [91, 91] 2, ?_⟩
  exact stack_depth_bounded.2 _ JSONT_OBJECT_START rfl (Or.inl rfl)

/-- C4.  Structural-stack discipline of the scanner: a `{`/`[` below capacity
pushes exactly one marker and nothing else changes besides the current token;
a `}`/`]` whose marker matches the stack top pops exactly that marker; a
mismatched closer (stack top not the matching opener, which includes both
closers at depth 0, where the top reads as `JSONT_END`) produces the `Error`
token with the corresponding unexpected-end descriptor and leaves the stack
unchanged.  The final conjunct ties this to the advance operation: when the
cursor sits on one of the four structural bytes, `jsont_next` is exactly
`_set_tok` of the corresponding token on the cursor-advanced state. -/
theorem structural_transitions :
    (∀ ctx : jsont_ctx_t, ctx.st_stack.length < ctx.st_stack_size →
        _set_tok ctx JSONT_OBJECT_START =
          { ctx with
              curr_tok := JSONT_OBJECT_START
              st_stack := JSONT_OBJECT_START :: ctx.st_stack }) ∧
    (∀ ctx : jsont_ctx_t, ctx.st_stack.length < ctx.st_stack_size →
        _set_tok ctx JSONT_ARRAY_START =
          { ctx with
              curr_tok := JSONT_ARRAY_START
              st_stack := JSONT_ARRAY_START :: ctx.st_stack }) ∧
    (∀ (ctx : jsont_ctx_t) (rest : List Nat),
        ctx.st_stack = JSONT_OBJECT_START :: rest →
        _set_tok ctx JSONT_OBJECT_END =
          { ctx with curr_tok := JSONT_OBJECT_END, st_stack := rest }) ∧
    (∀ (ctx : jsont_ctx_t) (rest : List Nat),
        ctx.st_stack = JSONT_ARRAY_START :: rest →
        _set_tok ctx JSONT_ARRAY_END =
          { ctx with curr_tok := JSONT_ARRAY_END, st_stack := rest }) ∧
    (∀ ctx : jsont_ctx_t, _st_stack_top ctx ≠ JSONT_OBJECT_START →
        _set_tok ctx JSONT_OBJECT_END =
          { ctx with
              curr_tok := JSONT_ERR
              error_info := some ErrInfo.unexpectedObjectEnd }) ∧
    (∀ ctx : jsont_ctx_t, _st_stack_top ctx ≠ JSONT_ARRAY_START →
        _set_tok ctx JSONT_ARRAY_END =
          { ctx with
              curr_tok := JSONT_ERR
              error_info := some ErrInfo.unexpectedArrayEnd }) ∧
    (∀ (ctx : jsont_ctx_t) (tokb tok : Nat),
        ctx.input_buf_ptr < ctx.input_buf.length →
        ctx.input_buf.getD ctx.input_buf_ptr 0 = tokb →
        (tokb = 123 ∧ tok = JSONT_OBJECT_START) ∨
          (tokb = 125 ∧ tok = JSONT_OBJECT_END) ∨
          (tokb = 91 ∧ tok = JSONT_ARRAY_START) ∨
          (tokb = 93 ∧ tok = JSONT_ARRAY_END) →
        jsont_next ctx =
          _set_tok { ctx with input_buf_ptr := ctx.input_buf_ptr + 1 } tok) := by
  refine ⟨?_, ?_, ?_, ?_, ?_, ?_, ?_⟩
  · intro ctx hlt
    have hne : ¬ (ctx.st_stack.length = ctx.st_stack_size) := by omega
    unfold _set_tok
    dsimp only
    rw [if_neg (by decide : ¬ (JSONT_OBJECT_START = JSONT_END)),
      if_pos rfl, if_neg hne]
  · intro ctx hlt
    have hne : ¬ (ctx.st_stack.length = ctx.st_stack_size) := by omega
    unfold _set_tok
    dsimp only
    rw [if_neg (by decide : ¬ (JSONT_ARRAY_START = JSONT_END)),
      if_neg (by decide : ¬ (JSONT_ARRAY_START = JSONT_OBJECT_START)),
      if_neg (by decide : ¬ (JSONT_ARRAY_START = JSONT_OBJECT_END)),
      if_pos rfl, if_neg hne]
  · intro ctx rest hstack
    have htop : _st_stack_top { ctx with curr_tok := JSONT_OBJECT_END } =
        JSONT_OBJECT_START := by
      unfold _st_stack_top
      dsimp only
      rw [hstack]
    unfold _set_tok
    dsimp only
    rw [if_neg (by decide : ¬ (JSONT_OBJECT_END = JSONT_END)),
      if_neg (by decide : ¬ (JSONT_OBJECT_END = JSONT_OBJECT_START)),
      if_pos rfl, if_neg (by rw [htop]; exact fun hk => hk rfl)]
    rw [hstack]
    rfl
  · intro ctx rest hstack
    have htop : _st_stack_top { ctx with curr_tok := JSONT_ARRAY_END } =
        JSONT_ARRAY_START := by
      unfold _st_stack_top
      dsimp only
      rw [hstack]
    unfold _set_tok
    dsimp only
    rw [if_neg (by decide : ¬ (JSONT_ARRAY_END = JSONT_END)),
      if_neg (by decide : ¬ (JSONT_ARRAY_END = JSONT_OBJECT_START)),
      if_neg (by decide : ¬ (JSONT_ARRAY_END = JSONT_OBJECT_END)),
      if_neg (by decide : ¬ (JSONT_ARRAY_END = JSONT_ARRAY_START)),
      if_pos rfl, if_neg (by rw [htop]; exact fun hk => hk rfl)]
    rw [hstack]
    rfl
  · intro ctx htop
    have htop2 : _st_stack_top { ctx with curr_tok := JSONT_OBJECT_END } ≠
        JSONT_OBJECT_START := htop
    unfold _set_tok
    dsimp only
    rw [if_neg (by decide : ¬ (JSONT_OBJECT_END = JSONT_END)),
      if_neg (by decide : ¬ (JSONT_OBJECT_END = JSONT_OBJECT_START)),
      if_pos rfl, if_pos htop2]
  · intro ctx htop
    have htop2 : _st_stack_top { ctx with curr_tok := JSONT_ARRAY_END } ≠
        JSONT_ARRAY_START := htop
    unfold _set_tok
    dsimp only
    rw [if_neg (by decide : ¬ (JSONT_ARRAY_END = JSONT_END)),
      if_neg (by decide : ¬ (JSONT_ARRAY_END = JSONT_OBJECT_START)),
      if_neg (by decide : ¬ (JSONT_ARRAY_END = JSONT_OBJECT_END)),
      if_neg (by decide : ¬ (JSONT_ARRAY_END = JSONT_ARRAY_START)),
      if_pos rfl, if_pos htop2]
  · intro ctx tokb tok hlt hb hpair
    have havail : ¬ (_input_avail ctx = 0) := by unfold _input_avail; omega
    have hval : _next_byte_val ctx = tokb := by
      unfold _next_byte_val; rw [if_neg havail]; exact hb
    have hadv2 : _next_byte_adv ctx =
        { ctx with input_buf_ptr := ctx.input_buf_ptr + 1 } := by
      unfold _next_byte_adv; rw [if_neg havail]
    unfold jsont_next
    unfold _jsont_next_go
    dsimp only
    rw [hval, hadv2]
    rcases hpair with ⟨hb1, ht1⟩ | ⟨hb1, ht1⟩ | ⟨hb1, ht1⟩ | ⟨hb1, ht1⟩ <;>
      subst hb1 <;> subst ht1
    · rw [if_pos rfl]
    · rw [if_neg (by decide), if_pos rfl]
    · rw [if_neg (by decide), if_neg (by decide), if_pos rfl]
    · rw [if_neg (by decide), if_neg (by decide), if_neg (by decide),
        if_pos rfl]

/-- C4 witness: on a fresh scanner over `]`, advance dispatches to
`_set_tok … JSONT_ARRAY_END`, which (empty stack, top reads `JSONT_END`)
errors with the unexpected-array-end descriptor and an unchanged stack; and a
concrete push below capacity prepends exactly one marker. -/
theorem structural_transitions_witness :
    jsont_next (jsont_reset jsont_create [93]) =
      _set_tok
        { jsont_reset jsont_create [93] with input_buf_ptr := 1 }
        JSONT_ARRAY_END ∧
    _set_tok (jsont_reset jsont_create [91]) JSONT_OBJECT_START =
      { jsont_reset jsont_create [91] with
          curr_tok := JSONT_OBJECT_START
          st_stack := [JSONT_OBJECT_START] } ∧
    _set_tok (jsont_reset jsont_create [93]) JSONT_ARRAY_END =
      { jsont_reset jsont_create [93] with
          curr_tok := JSONT_ERR
          error_info := some ErrInfo.unexpectedArrayEnd } := by
  refine ⟨?_, ?_, ?_⟩
  · exact structural_transitions.2.2.2.2.2.2 _ 93 JSONT_ARRAY_END
      (by decide) (by decide) (by decide)
  · exact structural_transitions.1 _ (by decide)
  · exact structural_transitions.2.2.2.2.2.1 _ (by decide)

/-- C1.  Behaviour of `jsont_next` on buffers truncated inside a multi-byte
construct.  Truncated literals (`nu`, `tr`, `fals`) and an unterminated
string (`"abc`) emit `End` with the cursor rewound to the start of the
construct, as the claim states.  But a truncated number (`-12`) does NOT: the
`b == 0` end-of-input branch of the number loop in jsont.c sits below the
`!isdigit(b)` branch and `isdigit(0)` is false, so it is dead code, and the
scanner instead emits `Integer`, leaves the cursor at offset 2 (not 0), and
reports the value slice `-1` with the last digit chopped off — contradicting
the claim and the source's own comment on that branch ("Input buffer ends
before we know that the number-value ended"). -/
theorem truncated_input_behavior :
    ((jsont_next (jsont_reset jsont_create [110, 117])).curr_tok = JSONT_END ∧
      jsont_current_offset (jsont_next (jsont_reset jsont_create [110, 117])) = 0) ∧
    ((jsont_next (jsont_reset jsont_create [116, 114])).curr_tok = JSONT_END ∧
      jsont_current_offset (jsont_next (jsont_reset jsont_create [116, 114])) = 0) ∧
    ((jsont_next (jsont_reset jsont_create [102, 97, 108, 115])).curr_tok = JSONT_END ∧
      jsont_current_offset
        (jsont_next (jsont_reset jsont_create [102, 97, 108, 115])) = 0) ∧
    ((jsont_next (jsont_reset jsont_create [34, 97, 98, 99])).curr_tok = JSONT_END ∧
      jsont_current_offset
        (jsont_next (jsont_reset jsont_create [34, 97, 98, 99])) = 0) ∧
    ((jsont_next (jsont_reset jsont_create [45, 49, 50])).curr_tok =
        JSONT_NUMBER_INT ∧
      jsont_current_offset (jsont_next (jsont_reset jsont_create [45, 49, 50])) = 2 ∧
      jsont_data_value (jsont_next (jsont_reset jsont_create [45, 49, 50])) =
        [45, 49]) := by
  decide

/-- C2.  Scanning `{"n":42,"f":3.5,"t":true,"a":[1,2]}` yields exactly
ObjectStart, FieldName "n", Integer "42", FieldName "f", Float "3.5",
FieldName "t", True, FieldName "a", ArrayStart, Integer "1", Integer "2",
ArrayEnd, ObjectEnd, End — no Error token anywhere. -/
theorem example_scenario_tokens :
    jsont_scan
        [123, 34, 110, 34, 58, 52, 50, 44, 34, 102, 34, 58, 51, 46, 53, 44,
         34, 116, 34, 58, 116, 114, 117, 101, 44, 34, 97, 34, 58, 91, 49, 44,
         50, 93, 125] 14 =
      [(JSONT_OBJECT_START, []), (JSONT_FIELD_NAME, [110]),
       (JSONT_NUMBER_INT, [52, 50]), (JSONT_FIELD_NAME, [102]),
       (JSONT_NUMBER_FLOAT, [51, 46, 53]), (JSONT_FIELD_NAME, [116]),
       (JSONT_TRUE, []), (JSONT_FIELD_NAME, [97]), (JSONT_ARRAY_START, []),
       (JSONT_NUMBER_INT, [49]), (JSONT_NUMBER_INT, [50]),
       (JSONT_ARRAY_END, []), (JSONT_OBJECT_END, []), (JSONT_END, [])] := by
  decide

/-- C5 counterexample.  The claim says a `,` arriving while the current token
is the internal comma yields the unexpected-comma Error.  It does not: in
jsont.c the error test is `curr_tok ∈ {ObjectStart, ArrayStart, End, Err}`,
which does not include `_JSONT_COMMA`, so `[1,,2]` scans to completion as
ArrayStart, Integer "1", Integer "2", ArrayEnd, End with no Error token: on
the third advance the second comma (current token = internal comma) is
consumed as legal. -/
theorem comma_after_comma_no_error :
    jsont_scan [91, 49, 44, 44, 50, 93] 5 =
      [(JSONT_ARRAY_START, []), (JSONT_NUMBER_INT, [49]),
       (JSONT_NUMBER_INT, [50]), (JSONT_ARRAY_END, []), (JSONT_END, [])] := by
  decide

/-- C8.  From a fresh Builder, `startObject; fieldName "x"; value 1;
fieldName "y"; value false; endObject` leaves the output buffer holding
exactly the bytes of `{"x":1,"y":false}`. -/
theorem builder_scenario :
    (((((Builder.mkNew.startObject.fieldName [120]).valueInt 1).fieldName
        [121]).valueBool false).endObject)._buf =
      [123, 34, 120, 34, 58, 49, 44, 34, 121, 34, 58,
       102, 97, 108, 115, 101, 125] := by
  decide

/-- C9 counterexample.  After 63 `startArray` calls a fresh builder has
`_size = 63`, `_capacity = 64`; `value(true)` then calls `reserve(4)` with
`available() = 1`, i.e. shortfall `4 - 1 = 3`.  The code grows the capacity to
`(64 + 3) * 1.5 = 100` (the `< 64` test is applied before the 1.5 factor),
whereas the claimed formula `max(64, capacity * 1.5 + shortfall)` gives
`max(64, 96 + 3) = 99`. -/
theorem reserve_growth_counterexample :
    ((startArrayN 63 Builder.mkNew).valueBool true)._capacity = 100 ∧
      max 64 (64 * 3 / 2 + 3) = 99 := by
  decide

/-- C10 counterexample.  A NUL byte reached at dispatch level is consumed:
on input `0x00 [` the first advance emits End with the cursor already past
the NUL (offset 1, not the NUL's offset 0), and the next advance tokenizes
the `[` that follows the NUL — so bytes after the first NUL reachable by
dispatch ARE tokenized, contradicting the claim. -/
theorem nul_dispatch_counterexample :
    (jsont_next (jsont_reset jsont_create [0, 91])).curr_tok = JSONT_END ∧
      jsont_current_offset (jsont_next (jsont_reset jsont_create [0, 91])) = 1 ∧
      (jsont_next (jsont_next (jsont_reset jsont_create [0, 91]))).curr_tok =
        JSONT_ARRAY_START := by
  decide

/-- C5 (amended).  Comma handling of `jsont_next` when the cursor sits on a
`,` byte: the unexpected-comma Error is produced exactly when the current
token is End, ObjectStart or ArrayStart; when the current token is already
Error the token stays Error and the existing descriptor is not overwritten;
in every other state — including the internal-comma state, which the C code
deliberately leaves out of the error test — the comma is consumed without
emitting a token and scanning continues from the next byte with the internal
comma recorded as current token. -/
theorem comma_dispatch (ctx : jsont_ctx_t)
    (hlt : ctx.input_buf_ptr < ctx.input_buf.length)
    (hb : ctx.input_buf.getD ctx.input_buf_ptr 0 = 44) :
    (ctx.curr_tok = JSONT_OBJECT_START ∨ ctx.curr_tok = JSONT_ARRAY_START ∨
        ctx.curr_tok = JSONT_END →
      jsont_next ctx =
        { ctx with
            input_buf_ptr := ctx.input_buf_ptr + 1
            curr_tok := JSONT_ERR
            error_info := some ErrInfo.unexpectedComma }) ∧
    (ctx.curr_tok = JSONT_ERR →
      jsont_next ctx =
        { ctx with
            input_buf_ptr := ctx.input_buf_ptr + 1
            curr_tok := JSONT_ERR }) ∧
    (ctx.curr_tok ≠ JSONT_OBJECT_START → ctx.curr_tok ≠ JSONT_ARRAY_START →
      ctx.curr_tok ≠ JSONT_END → ctx.curr_tok ≠ JSONT_ERR →
      jsont_next ctx =
        jsont_next
          { ctx with
              input_buf_ptr := ctx.input_buf_ptr + 1
              curr_tok := _JSONT_COMMA }) := by
  have havail : ¬ (_input_avail ctx = 0) := by unfold _input_avail; omega
  have hval : _next_byte_val ctx = 44 := by
    unfold _next_byte_val; rw [if_neg havail]; exact hb
  have hadv2 : _next_byte_adv ctx =
      { ctx with input_buf_ptr := ctx.input_buf_ptr + 1 } := by
    unfold _next_byte_adv; rw [if_neg havail]
  refine ⟨?_, ?_, ?_⟩
  · intro hcur
    unfold jsont_next
    unfold _jsont_next_go
    dsimp only
    rw [hval, hadv2]
    rw [if_neg (by decide), if_neg (by decide), if_neg (by decide),
      if_neg (by decide), if_neg (by decide), if_neg (by decide),
      if_neg (by decide), if_neg (by decide), if_pos rfl]
    have hcond :
        ({ ctx with input_buf_ptr := ctx.input_buf_ptr + 1 }).curr_tok =
            JSONT_OBJECT_START ∨
          ({ ctx with input_buf_ptr := ctx.input_buf_ptr + 1 }).curr_tok =
            JSONT_ARRAY_START ∨
          ({ ctx with input_buf_ptr := ctx.input_buf_ptr + 1 }).curr_tok =
            JSONT_END ∨
          ({ ctx with input_buf_ptr := ctx.input_buf_ptr + 1 }).curr_tok =
            JSONT_ERR := by
      dsimp only
      rcases hcur with h | h | h
      · exact Or.inl h
      · exact Or.inr (Or.inl h)
      · exact Or.inr (Or.inr (Or.inl h))
    rw [if_pos hcond]
    have hne :
        ({ ctx with input_buf_ptr := ctx.input_buf_ptr + 1 }).curr_tok ≠
          JSONT_ERR := by
      dsimp only
      rcases hcur with h | h | h <;> rw [h] <;> decide
    rw [if_pos hne,
      _set_tok_plain _ _ (by decide) (by decide) (by decide) (by decide)
        (by decide)]
  · intro hcur
    unfold jsont_next
    unfold _jsont_next_go
    dsimp only
    rw [hval, hadv2]
    rw [if_neg (by decide), if_neg (by decide), if_neg (by decide),
      if_neg (by decide), if_neg (by decide), if_neg (by decide),
      if_neg (by decide), if_neg (by decide), if_pos rfl]
    have hcond :
        ({ ctx with input_buf_ptr := ctx.input_buf_ptr + 1 }).curr_tok =
            JSONT_OBJECT_START ∨
          ({ ctx with input_buf_ptr := ctx.input_buf_ptr + 1 }).curr_tok =
            JSONT_ARRAY_START ∨
          ({ ctx with input_buf_ptr := ctx.input_buf_ptr + 1 }).curr_tok =
            JSONT_END ∨
          ({ ctx with input_buf_ptr := ctx.input_buf_ptr + 1 }).curr_tok =
            JSONT_ERR := by
      dsimp only
      exact Or.inr (Or.inr (Or.inr hcur))
    rw [if_pos hcond]
    have hne :
        ¬ (({ ctx with input_buf_ptr := ctx.input_buf_ptr + 1 }).curr_tok ≠
          JSONT_ERR) := by
      dsimp only
      exact fun hk => hk hcur
    rw [if_neg hne,
      _set_tok_plain _ _ (by decide) (by decide) (by decide) (by decide)
        (by decide)]
  · intro h1 h2 h3 h4
    conv_lhs => unfold jsont_next _jsont_next_go
    dsimp only
    rw [hval, hadv2]
    rw [if_neg (by decide), if_neg (by decide), if_neg (by decide),
      if_neg (by decide), if_neg (by decide), if_neg (by decide),
      if_neg (by decide), if_neg (by decide), if_pos rfl]
    have hcond :
        ¬ (({ ctx with input_buf_ptr := ctx.input_buf_ptr + 1 }).curr_tok =
            JSONT_OBJECT_START ∨
          ({ ctx with input_buf_ptr := ctx.input_buf_ptr + 1 }).curr_tok =
            JSONT_ARRAY_START ∨
          ({ ctx with input_buf_ptr := ctx.input_buf_ptr + 1 }).curr_tok =
            JSONT_END ∨
          ({ ctx with input_buf_ptr := ctx.input_buf_ptr + 1 }).curr_tok =
            JSONT_ERR) := by
      dsimp only
      rintro (h | h | h | h)
      · exact h1 h
      · exact h2 h
      · exact h3 h
      · exact h4 h
    rw [if_neg hcond]
    rw [_set_tok_plain _ _ (by decide) (by decide) (by decide) (by decide)
      (by decide)]
    have hfuel : _input_avail ctx =
        _input_avail
          { ctx with
              input_buf_ptr := ctx.input_buf_ptr + 1
              curr_tok := _JSONT_COMMA } + 1 := by
      unfold _input_avail
      dsimp only
      omega
    rw [hfuel]
    rfl

/-- C5 witness: a fresh scanner over `,` (current token End) errors with the
unexpected-comma descriptor and the comma byte consumed. -/
theorem comma_dispatch_witness :
    jsont_next (jsont_reset jsont_create [44]) =
      { jsont_reset jsont_create [44] with
          input_buf_ptr := 1
          curr_tok := JSONT_ERR
          error_info := some ErrInfo.unexpectedComma } :=
  (comma_dispatch (jsont_reset jsont_create [44]) (by decide) (by decide)).1
    (Or.inr (Or.inr rfl))

/-- C6.  A quoted token is classified `JSONT_FIELD_NAME` exactly when, at the
moment the opening quote was dispatched, the current token was `ObjectStart`,
or it was the internal comma with an object marker on top of the structure
stack; otherwise it is classified `JSONT_STRING`.  The first conjunct states
this for the string-scanning loop (which leaves `curr_tok` and the stack
untouched until the closing quote): whenever it produces a quoted token at
all, that token is `FieldName` iff the entry state expected a field name.
The remaining conjuncts check the spec's two concrete examples:
`{"a":1,"b":2}` classifies both quoted tokens as field names, `["a","b"]`
classifies both as strings. -/
theorem field_name_rule :
    (∀ (fuel : Nat) (ctx : jsont_ctx_t) (prev : Nat),
        _input_avail ctx < fuel →
        ((_scan_string fuel ctx prev).curr_tok = JSONT_FIELD_NAME ∨
          (_scan_string fuel ctx prev).curr_tok = JSONT_STRING) →
        ((_scan_string fuel ctx prev).curr_tok = JSONT_FIELD_NAME ↔
          (ctx.curr_tok = JSONT_OBJECT_START ∨
            (ctx.curr_tok = _JSONT_COMMA ∧
              _st_stack_top ctx = JSONT_OBJECT_START)))) ∧
    jsont_scan [123, 34, 97, 34, 58, 49, 44, 34, 98, 34, 58, 50, 125] 7 =
      [(JSONT_OBJECT_START, []), (JSONT_FIELD_NAME, [97]),
       (JSONT_NUMBER_INT, [49]), (JSONT_FIELD_NAME, [98]),
       (JSONT_NUMBER_INT, [50]), (JSONT_OBJECT_END, []), (JSONT_END, [])] ∧
    jsont_scan [91, 34, 97, 34, 44, 34, 98, 34, 93] 5 =
      [(JSONT_ARRAY_START, []), (JSONT_STRING, [97]), (JSONT_STRING, [98]),
       (JSONT_ARRAY_END, []), (JSONT_END, [])] := by
  refine ⟨?_, by decide, by decide⟩
  intro fuel
  induction fuel with
  | zero => intro ctx prev h0; exact absurd h0 (Nat.not_lt_zero _)
  | succ n ih =>
    intro ctx prev hfuel hres
    by_cases hq : _next_byte_val ctx = 34 ∧ prev ≠ 92
    · unfold _scan_string at hres ⊢
      dsimp only at hres ⊢
      rw [if_pos hq] at hres ⊢
      rw [_set_tok_quoted] at hres ⊢
      dsimp only at hres ⊢
      rw [_expects_scan_record, _expects_adv] at hres ⊢
      by_cases hexp : _expects_field_name ctx = true
      · rw [if_pos hexp]
        exact ⟨fun _ => (_expects_iff ctx).1 hexp, fun _ => rfl⟩
      · rw [if_neg hexp]
        exact ⟨fun h => absurd h (by decide),
          fun hp => absurd ((_expects_iff ctx).2 hp) hexp⟩
    · by_cases hz : _next_byte_val ctx = 0
      · exfalso
        unfold _scan_string at hres
        dsimp only at hres
        rw [if_neg hq, if_pos hz, _set_tok_end_eq] at hres
        dsimp only at hres
        rcases hres with h | h <;> exact absurd h (by decide)
      · unfold _scan_string at hres ⊢
        dsimp only at hres ⊢
        rw [if_neg hq, if_neg hz] at hres ⊢
        have havail : ¬ (_input_avail ctx = 0) := fun h0 =>
          hz (by unfold _next_byte_val; rw [if_pos h0])
        have hlt2 : _input_avail (_next_byte_adv ctx) < n := by
          unfold _next_byte_adv
          rw [if_neg havail]
          unfold _input_avail at *
          dsimp only
          omega
        have hmain := ih (_next_byte_adv ctx) (_next_byte_val ctx) hlt2 hres
        rw [_next_byte_adv_curr,
          _st_stack_top_congr _ _ (_next_byte_adv_stack ctx)] at hmain
        exact hmain

/-- C6 witness: inside an object right after `ObjectStart`, scanning the two
bytes `a"` (the remainder of the quoted construct) yields a token claimed to
be a field name, and the iff instantiates to that fact. -/
theorem field_name_rule_witness :
    ((_scan_string 3
          { input_buf := [97, 34]
            input_buf_ptr := 0
            input_buf_value_start := some 0
            input_buf_value_end := none
            error_info := none
            curr_tok := JSONT_OBJECT_START
            st_stack_size := 512
            st_stack := [JSONT_OBJECT_START] } 0).curr_tok =
        JSONT_FIELD_NAME ↔
      (({ input_buf := [97, 34]
          input_buf_ptr := 0
          input_buf_value_start := some 0
          input_buf_value_end := none
          error_info := none
          curr_tok := JSONT_OBJECT_START
          st_stack_size := 512
          st_stack := [JSONT_OBJECT_START] } : jsont_ctx_t).curr_tok =
          JSONT_OBJECT_START ∨
        (({ input_buf := [97, 34]
            input_buf_ptr := 0
            input_buf_value_start := some 0
            input_buf_value_end := none
            error_info := none
            curr_tok := JSONT_OBJECT_START
            st_stack_size := 512
            st_stack := [JSONT_OBJECT_START] } : jsont_ctx_t).curr_tok =
            _JSONT_COMMA ∧
          _st_stack_top
              { input_buf := [97, 34]
                input_buf_ptr := 0
                input_buf_value_start := some 0
                input_buf_value_end := none
                error_info := none
                curr_tok := JSONT_OBJECT_START
                st_stack_size := 512
                st_stack := [JSONT_OBJECT_START] } =
            JSONT_OBJECT_START))) :=
  field_name_rule.1 3 _ 0 (by decide) (by decide)

/-- C10 (amended).  A NUL byte reached at dispatch level is treated as the
end-of-input case of the dispatch switch but, unlike true end of input, the
byte is consumed: advance emits `End` with the cursor one past the NUL and
nothing else changed, so subsequent advances tokenize the bytes that follow
(see the counterexample theorem).  Inside a string a NUL behaves exactly like
truncation: the cursor rewinds to the opening quote and `End` is emitted
(second conjunct, on `"a<NUL>b"`), and repeating the advance reproduces the
same state (third conjunct), so no byte beyond the NUL is ever tokenized on
that path. -/
theorem nul_byte_rule :
    (∀ ctx : jsont_ctx_t, ctx.input_buf_ptr < ctx.input_buf.length →
        ctx.input_buf.getD ctx.input_buf_ptr 0 = 0 →
        jsont_next ctx =
          { ctx with
              input_buf_ptr := ctx.input_buf_ptr + 1
              curr_tok := JSONT_END }) ∧
    jsont_next (jsont_reset jsont_create [34, 97, 0, 98, 34]) =
      { jsont_reset jsont_create [34, 97, 0, 98, 34] with
          input_buf_value_start := some 1 } ∧
    jsont_next (jsont_next (jsont_reset jsont_create [34, 97, 0, 98, 34])) =
      jsont_next (jsont_reset jsont_create [34, 97, 0, 98, 34]) := by
  refine ⟨?_, by decide, by decide⟩
  intro ctx hlt hb
  have havail : ¬ (_input_avail ctx = 0) := by unfold _input_avail; omega
  have hval : _next_byte_val ctx = 0 := by
    unfold _next_byte_val; rw [if_neg havail]; exact hb
  have hadv2 : _next_byte_adv ctx =
      { ctx with input_buf_ptr := ctx.input_buf_ptr + 1 } := by
    unfold _next_byte_adv; rw [if_neg havail]
  unfold jsont_next
  unfold _jsont_next_go
  dsimp only
  rw [hval, hadv2]
  rw [if_neg (by decide), if_neg (by decide), if_neg (by decide),
    if_neg (by decide), if_neg (by decide), if_neg (by decide),
    if_neg (by decide), if_neg (by decide), if_neg (by decide),
    if_neg (by decide), if_neg (by decide), if_pos rfl, _set_tok_end_eq]

/-- C10 witness: a buffer holding a single NUL byte. -/
theorem nul_byte_rule_witness :
    jsont_next (jsont_reset jsont_create [0]) =
      { jsont_reset jsont_create [0] with
          input_buf_ptr := 1
          curr_tok := JSONT_END } :=
  nul_byte_rule.1 (jsont_reset jsont_create [0]) (by decide) (by decide)

/-- C9 (amended).  The builder's buffer starts at zero capacity.  When an
append requests `req` bytes and fewer than `req` are available, `reserve`
first computes `capacity + req - available` — which equals `size + req` —
and then grows the capacity to 64 when that intermediate value is below 64
and to `(size + req) * 1.5` (truncated) otherwise; in particular the 1.5
factor is applied after (not before) adding the shortfall, unlike the
claimed `max(64, capacity * 1.5 + shortfall)`.  The growth always makes at
least `req` bytes available. -/
theorem reserve_growth (b : Builder) (req : Nat)
    (hcap : b._buf.length ≤ b._capacity) (h : b.available < req) :
    (b.reserve req)._capacity =
      (if b._buf.length + req < 64 then 64
       else (b._buf.length + req) * 3 / 2) ∧
    req ≤ (b.reserve req).available ∧
    Builder.mkNew._capacity = 0 := by
  have hbuf : (b.reserve req)._buf = b._buf := by
    unfold Builder.reserve
    rw [if_pos h]
  have hkey : (b.reserve req)._capacity =
      if b._buf.length + req < 64 then 64
      else (b._buf.length + req) * 3 / 2 := by
    unfold Builder.reserve
    rw [if_pos h]
    dsimp only
    have hc1 : b._capacity + req - b.available = b._buf.length + req := by
      unfold Builder.available
      omega
    rw [hc1]
  refine ⟨hkey, ?_, rfl⟩
  unfold Builder.available
  rw [hbuf, hkey]
  by_cases h64 : b._buf.length + req < 64
  · rw [if_pos h64]; omega
  · rw [if_neg h64]
    have h2 : (b._buf.length + req) * 2 / 2 = b._buf.length + req :=
      Nat.mul_div_cancel _ (by omega)
    have h3 : (b._buf.length + req) * 2 / 2 ≤ (b._buf.length + req) * 3 / 2 :=
      Nat.div_le_div_right (Nat.mul_le_mul_left _ (by omega))
    omega

/-- C9 witness: the first append of a fresh builder grows the capacity from
0 to 64 and leaves at least the requested byte available. -/
theorem reserve_growth_witness :
    (Builder.mkNew.reserve 1)._capacity =
      (if Builder.mkNew._buf.length + 1 < 64 then 64
       else (Builder.mkNew._buf.length + 1) * 3 / 2) ∧
    1 ≤ (Builder.mkNew.reserve 1).available ∧
    Builder.mkNew._capacity = 0 :=
  reserve_growth Builder.mkNew 1 (by decide) (by decide)

/-! ### Helper lemmas for the integer accessor -/

theorem decimalVal_cons (b : Nat) (bs : List Nat) :
    decimalVal (b :: bs) =
      bs.foldl (fun a x => a * 10 + (x - 48)) (b - 48) := by
  unfold decimalVal
  dsimp only [List.foldl]
  norm_num

/-- Once the overflow flag is set, the loop only propagates it. -/
theorem _int_loop_neg (bs : List Nat) :
    ∀ (acc cutoff cutlim : Nat),
      _int_loop bs acc (-1) cutoff cutlim = (acc, -1) := by
  induction bs with
  | nil => intro acc c cl; rfl
  | cons b bs ih =>
    intro acc c cl
    unfold _int_loop
    dsimp only
    by_cases hd : 48 ≤ b ∧ b ≤ 57
    · rw [if_pos hd, if_pos (Or.inl (by norm_num))]
      exact ih acc c cl
    · rw [if_neg hd]

/-- Accumulating decimal digits never decreases the value. -/
theorem _decimal_foldl_ge (bs : List Nat) :
    ∀ acc : Nat, acc ≤ bs.foldl (fun a x => a * 10 + (x - 48)) acc := by
  induction bs with
  | nil => intro acc; exact Nat.le_refl _
  | cons b bs ih =>
    intro acc
    dsimp only [List.foldl]
    exact Nat.le_trans (by omega) (ih (acc * 10 + (b - 48)))

/-- The strtol-style guard `acc > cutoff ∨ (acc = cutoff ∧ d > cutlim)` with
`cutoff = limit / 10`, `cutlim = limit % 10` detects exactly
`acc * 10 + d > limit` for digits `d ≤ 9`. -/
theorem _guard_iff (limit acc d : Nat) (hd : d ≤ 9) :
    (acc > limit / 10 ∨ (acc = limit / 10 ∧ d > limit % 10)) ↔
      acc * 10 + d > limit := by
  have hdm := Nat.div_add_mod limit 10
  have hr : limit % 10 < 10 := Nat.mod_lt _ (by omega)
  omega

/-- Main loop invariant: starting in the accumulating state with `acc` within
the limit and only digit bytes remaining, the loop either computes the exact
decimal value (when it stays within the limit) or ends in the overflow
state. -/
theorem _int_loop_spec (limit : Nat) (hlim : limit < 2 ^ 64) (bs : List Nat) :
    ∀ acc : Nat, (∀ x ∈ bs, 48 ≤ x ∧ x ≤ 57) → acc ≤ limit →
      (bs.foldl (fun a x => a * 10 + (x - 48)) acc ≤ limit →
        _int_loop bs acc 1 (limit / 10) (limit % 10) =
          (bs.foldl (fun a x => a * 10 + (x - 48)) acc, 1)) ∧
      (limit < bs.foldl (fun a x => a * 10 + (x - 48)) acc →
        (_int_loop bs acc 1 (limit / 10) (limit % 10)).2 = -1) := by
  have h64 : UINT64_MOD = 18446744073709551616 := by norm_num [UINT64_MOD]
  have hlim2 : limit < 18446744073709551616 := by
    have : (2 : Nat) ^ 64 = 18446744073709551616 := by norm_num
    omega
  induction bs with
  | nil =>
    intro acc hdig hacc
    exact ⟨fun _ => rfl, fun hgt => absurd hgt (by dsimp only [List.foldl]; omega)⟩
  | cons b bs ih =>
    intro acc hdig hacc
    have hb : 48 ≤ b ∧ b ≤ 57 := hdig b (by simp)
    have hd9 : b - 48 ≤ 9 := by omega
    dsimp only [List.foldl]
    unfold _int_loop
    dsimp only
    rw [if_pos hb]
    by_cases hg : acc * 10 + (b - 48) > limit
    · rw [if_pos (Or.inr ((_guard_iff limit acc (b - 48) hd9).2 hg))]
      constructor
      · intro hle
        exfalso
        have hmono := _decimal_foldl_ge bs (acc * 10 + (b - 48))
        omega
      · intro _
        rw [_int_loop_neg]
    · have hgneg :
          ¬ ((1 : Int) < 0 ∨ acc > limit / 10 ∨
            (acc = limit / 10 ∧ b - 48 > limit % 10)) := by
        rintro (h1 | h2)
        · exact absurd h1 (by norm_num)
        · exact hg ((_guard_iff limit acc (b - 48) hd9).1 h2)
      rw [if_neg hgneg]
      have hmod : (acc * 10 + (b - 48)) % UINT64_MOD = acc * 10 + (b - 48) :=
        Nat.mod_eq_of_lt (by omega)
      rw [hmod]
      exact ih (acc * 10 + (b - 48)) (fun x hx => hdig x (by simp [hx]))
        (by omega)

/-- First iteration from the no-digit-yet state: the guard cannot fire on a
zero accumulator when `limit / 10 > 0`, and the flag moves to 1. -/
theorem _int_loop_start (limit : Nat) (hq : 0 < limit / 10) (b : Nat)
    (hb : 48 ≤ b ∧ b ≤ 57) (bs : List Nat) :
    _int_loop (b :: bs) 0 0 (limit / 10) (limit % 10) =
      _int_loop bs (b - 48) 1 (limit / 10) (limit % 10) := by
  have h64 : UINT64_MOD = 18446744073709551616 := by norm_num [UINT64_MOD]
  conv_lhs => unfold _int_loop
  dsimp only
  rw [if_pos hb]
  have hneg :
      ¬ ((0 : Int) < 0 ∨ (0 : Nat) > limit / 10 ∨
        ((0 : Nat) = limit / 10 ∧ b - 48 > limit % 10)) := by
    rintro (h | h | ⟨h, _⟩)
    · exact absurd h (by norm_num)
    · omega
    · omega
  rw [if_neg hneg]
  have harg : (0 * 10 + (b - 48)) % UINT64_MOD = b - 48 := by
    rw [h64]; omega
  rw [harg]

/-- Positive-sign body of the accessor: exact value within `LLONG_MAX`,
clamped `INT64_MAX` with `ERANGE` above it. -/
theorem _int_value_go_pos (b : Nat) (bs : List Nat)
    (hb : 48 ≤ b ∧ b ≤ 57) (hdig : ∀ x ∈ bs, 48 ≤ x ∧ x ≤ 57) :
    (bs.foldl (fun a x => a * 10 + (x - 48)) (b - 48) ≤ 2 ^ 63 - 1 →
      _int_value_go false (b :: bs) =
        (((bs.foldl (fun a x => a * 10 + (x - 48)) (b - 48) : Nat) : Int),
          none)) ∧
    (2 ^ 63 - 1 < bs.foldl (fun a x => a * 10 + (x - 48)) (b - 48) →
      _int_value_go false (b :: bs) = (INT64_MAX, some JErrno.erange)) := by
  have hpM : (2 : Nat) ^ 63 - 1 = 9223372036854775807 := by norm_num
  have hp63 : (2 : Nat) ^ 63 = 9223372036854775808 := by norm_num
  have hstart := _int_loop_start (2 ^ 63 - 1) (by norm_num) b hb bs
  have hspec := _int_loop_spec (2 ^ 63 - 1) (by norm_num) bs (b - 48) hdig
    (by rw [hpM]; omega)
  constructor
  · intro hle
    unfold _int_value_go
    dsimp only
    rw [if_neg (by decide : ¬ ((false : Bool) = true))]
    rw [hstart, hspec.1 hle]
    dsimp only
    rw [if_neg (by norm_num : ¬ ((1 : Int) < 0)),
      if_neg (by norm_num : ¬ ((1 : Int) = 0))]
    rw [if_neg (by decide : ¬ ((false : Bool) = true))]
    unfold _uint64_to_int64
    rw [if_pos (by rw [hp63]; rw [hpM] at hle; omega)]
  · intro hgt
    unfold _int_value_go
    dsimp only
    rw [if_neg (by decide : ¬ ((false : Bool) = true))]
    rw [hstart]
    have h2 := hspec.2 hgt
    rw [if_pos (by rw [h2]; norm_num)]
    rw [if_neg (by decide : ¬ ((false : Bool) = true))]

/-- Negative-sign body of the accessor: exact value down to `LLONG_MIN`
(`uint64_t` negation plus the `int64_t` cast), clamped `INT64_MIN` with
`ERANGE` below it. -/
theorem _int_value_go_neg (b : Nat) (bs : List Nat)
    (hb : 48 ≤ b ∧ b ≤ 57) (hdig : ∀ x ∈ bs, 48 ≤ x ∧ x ≤ 57) :
    (bs.foldl (fun a x => a * 10 + (x - 48)) (b - 48) ≤ 2 ^ 63 →
      _int_value_go true (b :: bs) =
        (-((bs.foldl (fun a x => a * 10 + (x - 48)) (b - 48) : Nat) : Int),
          none)) ∧
    (2 ^ 63 < bs.foldl (fun a x => a * 10 + (x - 48)) (b - 48) →
      _int_value_go true (b :: bs) = (INT64_MIN, some JErrno.erange)) := by
  have h64 : UINT64_MOD = 18446744073709551616 := by norm_num [UINT64_MOD]
  have hp63 : (2 : Nat) ^ 63 = 9223372036854775808 := by norm_num
  have hstart := _int_loop_start (2 ^ 63) (by norm_num) b hb bs
  have hspec := _int_loop_spec (2 ^ 63) (by norm_num) bs (b - 48) hdig
    (by rw [hp63]; omega)
  constructor
  · intro hle
    unfold _int_value_go
    dsimp only
    rw [if_pos (show (true : Bool) = true from rfl)]
    rw [hstart, hspec.1 hle]
    dsimp only
    rw [if_neg (by norm_num : ¬ ((1 : Int) < 0)),
      if_neg (by norm_num : ¬ ((1 : Int) = 0))]
    rw [if_pos (show (true : Bool) = true from rfl)]
    unfold _uint64_to_int64
    rw [hp63] at hle
    by_cases hF0 : bs.foldl (fun a x => a * 10 + (x - 48)) (b - 48) = 0
    · rw [hF0]
      rw [show (UINT64_MOD - 0) % UINT64_MOD = 0 from by rw [h64]]
      rw [if_pos (by rw [hp63]; omega)]
      norm_num
    · have hF1 : 1 ≤ bs.foldl (fun a x => a * 10 + (x - 48)) (b - 48) := by
        omega
      have hFM : bs.foldl (fun a x => a * 10 + (x - 48)) (b - 48) ≤
          UINT64_MOD := by rw [h64]; omega
      have hmod :
          (UINT64_MOD - bs.foldl (fun a x => a * 10 + (x - 48)) (b - 48)) %
              UINT64_MOD =
            UINT64_MOD - bs.foldl (fun a x => a * 10 + (x - 48)) (b - 48) :=
        Nat.mod_eq_of_lt (by rw [h64]; omega)
      rw [hmod]
      have hge :
          ¬ (UINT64_MOD - bs.foldl (fun a x => a * 10 + (x - 48)) (b - 48) <
            2 ^ 63) := by
        rw [h64, hp63]
        omega
      rw [if_neg hge]
      have hval :
          ((UINT64_MOD -
              bs.foldl (fun a x => a * 10 + (x - 48)) (b - 48) : Nat) : Int) -
              2 ^ 64 =
            -((bs.foldl (fun a x => a * 10 + (x - 48)) (b - 48) : Nat) : Int) := by
        rw [Nat.cast_sub hFM]
        have hM : ((UINT64_MOD : Nat) : Int) = 2 ^ 64 := by
          norm_num [UINT64_MOD]
        rw [hM]
        ring
      rw [hval]
  · intro hgt
    unfold _int_value_go
    dsimp only
    rw [if_pos (show (true : Bool) = true from rfl)]
    rw [hstart]
    have h2 := hspec.2 hgt
    rw [if_pos (by rw [h2]; norm_num)]
    rw [if_pos (show (true : Bool) = true from rfl)]

/-- C7.  On a value slice that is the decimal representation of an integer
with an optional leading `+`/`-` sign, `jsont_int_value` returns exactly that
integer (with `errno` untouched) whenever it lies in the signed 64-bit range;
above the range it returns `INT64_MAX` and below it `INT64_MIN`, in both
cases signalling the range condition `ERANGE`. -/
theorem int_value_decimal (pre ds : List Nat)
    (hpre : pre = [] ∨ pre = [43] ∨ pre = [45])
    (hne : ds ≠ [])
    (hdig : ∀ x ∈ ds, 48 ≤ x ∧ x ≤ 57) :
    (INT64_MIN ≤ signedVal pre ds → signedVal pre ds ≤ INT64_MAX →
      jsont_int_value_slice (pre ++ ds) = (signedVal pre ds, none)) ∧
    (INT64_MAX < signedVal pre ds →
      jsont_int_value_slice (pre ++ ds) = (INT64_MAX, some JErrno.erange)) ∧
    (signedVal pre ds < INT64_MIN →
      jsont_int_value_slice (pre ++ ds) = (INT64_MIN, some JErrno.erange)) := by
  cases ds with
  | nil => exact absurd rfl hne
  | cons b bs =>
    have hb : 48 ≤ b ∧ b ≤ 57 := hdig b (by simp)
    have hdigbs : ∀ x ∈ bs, 48 ≤ x ∧ x ≤ 57 := fun x hx => hdig x (by simp [hx])
    have hmax : INT64_MAX = (9223372036854775807 : Int) := by
      norm_num [INT64_MAX]
    have hmin : INT64_MIN = (-9223372036854775808 : Int) := by
      norm_num [INT64_MIN]
    have hpM : (2 : Nat) ^ 63 - 1 = 9223372036854775807 := by norm_num
    have hp63 : (2 : Nat) ^ 63 = 9223372036854775808 := by norm_num
    rcases hpre with hp | hp | hp <;> subst hp
    · have hsv : signedVal [] (b :: bs) =
          ((bs.foldl (fun a x => a * 10 + (x - 48)) (b - 48) : Nat) : Int) := by
        unfold signedVal
        rw [if_neg (by decide : ¬ (([] : List Nat) = [45])), decimalVal_cons]
      have hslice : jsont_int_value_slice ([] ++ b :: bs) =
          _int_value_go false (b :: bs) := by
        rw [List.nil_append]
        unfold jsont_int_value_slice
        dsimp only
        rw [if_neg (by omega : ¬ (b = 45)), if_neg (by omega : ¬ (b = 43))]
      rw [hsv, hslice]
      have hgo := _int_value_go_pos b bs hb hdigbs
      refine ⟨?_, ?_, ?_⟩
      · intro h1 h2
        apply hgo.1
        rw [hmax] at h2
        rw [hpM]
        exact_mod_cast h2
      · intro h1
        apply hgo.2
        rw [hmax] at h1
        rw [hpM]
        exact_mod_cast h1
      · intro h1
        exfalso
        rw [hmin] at h1
        have h0 : (0 : Int) ≤
            ((bs.foldl (fun a x => a * 10 + (x - 48)) (b - 48) : Nat) : Int) :=
          Int.natCast_nonneg _
        omega
    · have hsv : signedVal [43] (b :: bs) =
          ((bs.foldl (fun a x => a * 10 + (x - 48)) (b - 48) : Nat) : Int) := by
        unfold signedVal
        rw [if_neg (by decide : ¬ (([43] : List Nat) = [45])), decimalVal_cons]
      have hslice : jsont_int_value_slice ([43] ++ b :: bs) =
          _int_value_go false (b :: bs) := by
        rw [List.cons_append, List.nil_append]
        unfold jsont_int_value_slice
        dsimp only
        rw [if_neg (by decide : ¬ ((43 : Nat) = 45)), if_pos rfl]
      rw [hsv, hslice]
      have hgo := _int_value_go_pos b bs hb hdigbs
      refine ⟨?_, ?_, ?_⟩
      · intro h1 h2
        apply hgo.1
        rw [hmax] at h2
        rw [hpM]
        exact_mod_cast h2
      · intro h1
        apply hgo.2
        rw [hmax] at h1
        rw [hpM]
        exact_mod_cast h1
      · intro h1
        exfalso
        rw [hmin] at h1
        have h0 : (0 : Int) ≤
            ((bs.foldl (fun a x => a * 10 + (x - 48)) (b - 48) : Nat) : Int) :=
          Int.natCast_nonneg _
        omega
    · have hsv : signedVal [45] (b :: bs) =
          -((bs.foldl (fun a x => a * 10 + (x - 48)) (b - 48) : Nat) : Int) := by
        unfold signedVal
        rw [if_pos rfl, decimalVal_cons]
      have hslice : jsont_int_value_slice ([45] ++ b :: bs) =
          _int_value_go true (b :: bs) := by
        rw [List.cons_append, List.nil_append]
        unfold jsont_int_value_slice
        dsimp only
        rw [if_pos rfl]
      rw [hsv, hslice]
      have hgo := _int_value_go_neg b bs hb hdigbs
      refine ⟨?_, ?_, ?_⟩
      · intro h1 h2
        apply hgo.1
        rw [hmin] at h1
        rw [hp63]
        have hc : ((bs.foldl (fun a x => a * 10 + (x - 48)) (b - 48) : Nat) :
            Int) ≤ 9223372036854775808 := by omega
        exact_mod_cast hc
      · intro h1
        exfalso
        rw [hmax] at h1
        have h0 : (0 : Int) ≤
            ((bs.foldl (fun a x => a * 10 + (x - 48)) (b - 48) : Nat) : Int) :=
          Int.natCast_nonneg _
        omega
      · intro h1
        apply hgo.2
        rw [hmin] at h1
        rw [hp63]
        have hc : (9223372036854775808 : Int) <
            ((bs.foldl (fun a x => a * 10 + (x - 48)) (b - 48) : Nat) : Int) := by
          omega
        exact_mod_cast hc

/-- C7 witness: the slice `42` parses to 42 with no `errno` effect. -/
theorem int_value_decimal_witness :
    jsont_int_value_slice ([] ++ [52, 50]) = (signedVal [] [52, 50], none) :=
  (int_value_decimal [] [52, 50] (Or.inl rfl) (by decide) (by decide)).1
    (by decide) (by decide)
